import Mathlib

/-!
Verification development for the YouTube video downloader backend.

The definitions below are a shallow embedding of the server code:

* `Download`, `InsertDownload` — the `downloads` row type and its insert
  schema (shared schema file).
* `MemStorage` with `createDownload` / `getDownload` / `updateDownload` —
  the in-memory record store (`server/storage.ts`).  The JS `Map` is
  embedded as an insertion-ordered association list; `Map.set` replaces
  an existing key in place and appends a fresh key.
* `tryYtdlCore`, `tryYoutubeDlExec`, `tryEnhancedYtDlp`,
  `downloadWithMultipleStrategies` — the three strategy executors and the
  pipeline (routes file).  External effects (URL validation by the
  library, stream events, subprocess exit codes, directory scans) are
  supplied by explicit environment records, and each function returns the
  ordered list of store updates it performs on the job record together
  with its boolean outcome.
* `parseInsertDownload`, `postDownload`, `getDownloadFileRoute` — the
  request-validation and route logic the claims mention.

Machine numbers are embedded as `Int` / `Nat`; the only arithmetic the
claims touch is `Math.round((downloaded / total) * 100)`, embedded
exactly for the rational value (see `jsRound100`); the `total = 0`
case (a NaN in JS) is mapped to 0 and is not relied on by any theorem.
-/

/-- Job status, the `status` column: "pending", "downloading",
"completed", "failed". -/
inductive Status where
  | pending
  | downloading
  | completed
  | failed
deriving DecidableEq, Repr

/-- A row of the `downloads` table (shared schema).  `createdAt` is an
abstract timestamp.  `format` has a DB-level default, so a record built
by `MemStorage.createDownload` from an insert object can lack it; it is
therefore embedded as `Option String`. -/
structure Download where
  id : String
  youtubeUrl : String
  title : String
  duration : Option String
  thumbnail : Option String
  channel : Option String
  views : Option String
  publishDate : Option String
  format : Option String
  status : Status
  progress : Int
  filePath : Option String
  createdAt : Nat
deriving DecidableEq, Repr

/-- The insert schema `insertDownloadSchema` picks these fields; the
nullable columns come through as optional nullable strings. -/
structure InsertDownload where
  youtubeUrl : String
  title : String
  duration : Option String
  thumbnail : Option String
  channel : Option String
  views : Option String
  publishDate : Option String
  format : Option String
deriving DecidableEq, Repr

/-- A `Partial<Download>` argument to `updateDownload`: each field is
present (`some`) or absent (`none`); for nullable columns a present
field carries `Option String`, mirroring `string | null`. -/
structure DownloadUpdate where
  id : Option String := none
  youtubeUrl : Option String := none
  title : Option String := none
  duration : Option (Option String) := none
  thumbnail : Option (Option String) := none
  channel : Option (Option String) := none
  views : Option (Option String) := none
  publishDate : Option (Option String) := none
  format : Option (Option String) := none
  status : Option Status := none
  progress : Option Int := none
  filePath : Option (Option String) := none
  createdAt : Option Nat := none
deriving DecidableEq, Repr

/-- The object spread `{ ...download, ...updates }`: every field present
in `updates` overrides the old record, every absent field is kept. -/
def applyUpdate (d : Download) (u : DownloadUpdate) : Download :=
  { id := u.id.getD d.id
    youtubeUrl := u.youtubeUrl.getD d.youtubeUrl
    title := u.title.getD d.title
    duration := u.duration.getD d.duration
    thumbnail := u.thumbnail.getD d.thumbnail
    channel := u.channel.getD d.channel
    views := u.views.getD d.views
    publishDate := u.publishDate.getD d.publishDate
    format := u.format.getD d.format
    status := u.status.getD d.status
    progress := u.progress.getD d.progress
    filePath := u.filePath.getD d.filePath
    createdAt := u.createdAt.getD d.createdAt }

/-- The `downloads : Map<string, Download>` of `MemStorage`, as an
insertion-ordered association list. -/
abbrev MemStorage := List (String × Download)

/-- `Map.get(id)`: first entry with the given key. -/
def getDownload : MemStorage → String → Option Download
  | [], _ => none
  | (k, v) :: rest, i => if k = i then some v else getDownload rest i

/-- `Map.set(id, d)`: replace the entry with this key in place, or
append when the key is fresh. -/
def setEntry : MemStorage → String → Download → MemStorage
  | [], i, d => [(i, d)]
  | (k, v) :: rest, i, d =>
      if k = i then (k, d) :: rest else (k, v) :: setEntry rest i d

/-- `MemStorage.createDownload`: build the record from the insert object
with a fresh id, `status: "pending"`, `progress: 0`, `filePath: null`
and the current time, store it, and return it. -/
def createDownload (s : MemStorage) (ins : InsertDownload)
    (freshId : String) (now : Nat) : Download × MemStorage :=
  let d : Download :=
    { id := freshId
      youtubeUrl := ins.youtubeUrl
      title := ins.title
      duration := ins.duration
      thumbnail := ins.thumbnail
      channel := ins.channel
      views := ins.views
      publishDate := ins.publishDate
      format := ins.format
      status := Status.pending
      progress := 0
      filePath := none
      createdAt := now }
  (d, setEntry s freshId d)

/-- `MemStorage.updateDownload`: look the record up; when absent return
`undefined` and leave the map alone; otherwise store and return the
spread-merged record. -/
def updateDownload (s : MemStorage) (id : String) (u : DownloadUpdate) :
    Option Download × MemStorage :=
  match getDownload s id with
  | none => (none, s)
  | some d => (some (applyUpdate d u), setEntry s id (applyUpdate d u))

/-! ## Title sanitisation and progress arithmetic -/

/-- A `\w` character of the JS regex: letters, digits, underscore. -/
def isWordChar (c : Char) : Bool :=
  c.isAlphanum || c = '_'

/-- A character kept by `title.replace(/[^\w\s-]/g, "")`. -/
def keepChar (c : Char) : Bool :=
  isWordChar c || c.isWhitespace || c = '-'

/-- `.replace(/\s+/g, "_")`: collapse each maximal run of whitespace to a
single underscore; the flag remembers whether the previous kept character
was part of a whitespace run. -/
def collapseWsAux : Bool → List Char → List Char
  | _, [] => []
  | prevWs, c :: rest =>
      if c.isWhitespace then
        (if prevWs then [] else ['_']) ++ collapseWsAux true rest
      else
        c :: collapseWsAux false rest

/-- `title.replace(/[^\w\s-]/g, "").replace(/\s+/g, "_")`. -/
def sanitizeTitle (t : String) : String :=
  String.mk (collapseWsAux false (t.data.filter keepChar))

/-- `Math.round((downloaded / total) * 100)` for naturals: the exact
rational `100 * d / t` rounded half away from zero, i.e.
`⌊(200 * d + t) / (2 * t)⌋`.  `total = 0` (a NaN in JS) is mapped to 0;
no theorem below depends on that case. -/
def jsRound100 (downloaded total : Nat) : Int :=
  if total = 0 then 0
  else (((200 * downloaded + total) / (2 * total) : Nat) : Int)

/-! ## The store updates the strategies perform -/

/-- `updateDownload(id, { status, progress })`. -/
def updStatusProgress (st : Status) (p : Int) : DownloadUpdate :=
  { status := some st, progress := some p }

/-- `updateDownload(id, { progress })`, from a stream progress event. -/
def updProgress (p : Int) : DownloadUpdate :=
  { progress := some p }

/-- `updateDownload(id, { status: "completed", progress: 100, filePath })`. -/
def updCompleted (p : String) : DownloadUpdate :=
  { status := some Status.completed, progress := some 100,
    filePath := some (some p) }

/-- The progress updates issued by the ytdl-core stream handler: one
`{ progress: Math.round((downloaded / total) * 100) }` per event. -/
def progressOps (evs : List (Nat × Nat)) : List DownloadUpdate :=
  evs.map (fun ev => updProgress (jsRound100 ev.1 ev.2))

/-! ## Strategy executors

Each executor is embedded as a function of its explicit external
environment, returning the ordered list of updates it performs on the
job record together with the boolean it resolves to.  Every throwing
path of the source is covered by a `catch` or an event handler that
resolves `false`; the embedding therefore returns a plain `Bool`. -/

/-- External behaviour seen by `tryYtdlCore`: whether
`ytdl.validateURL` accepts the URL, whether `ytdl.getInfo` /
`chooseFormat` throw (caught, `false`), the chosen format's container
extension, the `(downloaded, total)` progress events the stream emits,
and whether the write stream reaches `finish` (`true`) rather than an
`error` event (`false`). -/
structure YtdlEnv where
  urlValid : Bool
  getInfoThrows : Bool
  formatFound : Bool
  container : String
  progressEvents : List (Nat × Nat)
  streamFinished : Bool
deriving DecidableEq, Repr

/-- Strategy 1, `tryYtdlCore`: validate the URL; mark
`{ status: "downloading", progress: 10 }`; fetch info and choose a
format; stream to `downloads/<sanitizedTitle>.<container>`, forwarding
progress events; on `finish` write the completion fields and resolve
`true`; every failure resolves `false`. -/
def tryYtdlCore (_downloadId url fmt title : String) (e : YtdlEnv) :
    List DownloadUpdate × Bool :=
  if !e.urlValid then ([], false)
  else if e.getInfoThrows then ([updStatusProgress Status.downloading 10], false)
  else if !e.formatFound then ([updStatusProgress Status.downloading 10], false)
  else
    let outputPath := "downloads/" ++ sanitizeTitle title ++ "." ++ e.container
    if e.streamFinished then
      (updStatusProgress Status.downloading 10 ::
        progressOps e.progressEvents ++ [updCompleted outputPath], true)
    else
      (updStatusProgress Status.downloading 10 ::
        progressOps e.progressEvents, false)

/-- External behaviour seen by `tryYoutubeDlExec`: whether the
`youtubedl(url, options)` promise rejects (a throw of the directory
scan is caught by the same `catch` and is observationally identical),
and the first file of the `downloads` directory whose name starts with
the sanitized title, if any. -/
structure ExecEnv where
  execThrows : Bool
  foundFile : Option String
deriving DecidableEq, Repr

/-- Strategy 2, `tryYoutubeDlExec`: mark
`{ status: "downloading", progress: 20 }`; run the subprocess; scan the
output directory for a file with the sanitized-title name; when one is
found write the completion fields and return `true`, otherwise `false`;
a rejection is caught and returns `false`. -/
def tryYoutubeDlExec (_downloadId url fmt title : String) (e : ExecEnv) :
    List DownloadUpdate × Bool :=
  if e.execThrows then ([updStatusProgress Status.downloading 20], false)
  else
    match e.foundFile with
    | some f =>
        ([updStatusProgress Status.downloading 20,
          updCompleted ("downloads/" ++ f)], true)
    | none => ([updStatusProgress Status.downloading 20], false)

/-- External behaviour seen by `tryEnhancedYtDlp`: whether the spawned
process emits an `error` event (resolve `false`), its exit code on
`close`, and the first matching file of the output directory scan. -/
structure EnhancedEnv where
  spawnErrors : Bool
  exitCode : Int
  foundFile : Option String
deriving DecidableEq, Repr

/-- Strategy 3, `tryEnhancedYtDlp`: mark
`{ status: "downloading", progress: 30 }`; spawn `yt-dlp`; on exit code
0 scan the output directory, and when a matching file exists write the
completion fields and resolve `true`; every other outcome resolves
`false`. -/
def tryEnhancedYtDlp (_downloadId url fmt title : String) (e : EnhancedEnv) :
    List DownloadUpdate × Bool :=
  if e.spawnErrors then ([updStatusProgress Status.downloading 30], false)
  else if e.exitCode = 0 then
    match e.foundFile with
    | some f =>
        ([updStatusProgress Status.downloading 30,
          updCompleted ("downloads/" ++ f)], true)
    | none => ([updStatusProgress Status.downloading 30], false)
  else ([updStatusProgress Status.downloading 30], false)

/-- External environment of one whole pipeline run: whether creating the
output directory succeeds (its throw is caught by the outer handler,
which marks the job failed), and the three strategies' environments. -/
structure PipelineEnv where
  mkdirOk : Bool
  e1 : YtdlEnv
  e2 : ExecEnv
  e3 : EnhancedEnv
deriving DecidableEq, Repr

/-- The pipeline `downloadWithMultipleStrategies`, as the ordered list
of updates it performs on the job record: mark
`{ status: "downloading", progress: 0 }`; try the three strategies in
order, stopping at the first that resolves `true`; when all resolve
`false` — or the setup itself throws — mark
`{ status: "failed", progress: 0 }`.  (The 2-second inter-attempt
delays perform no store update; they are modelled by `pipelineTrace`.) -/
def downloadWithMultipleStrategies (downloadId url fmt title : String)
    (env : PipelineEnv) : List DownloadUpdate :=
  updStatusProgress Status.downloading 0 ::
    (if !env.mkdirOk then [updStatusProgress Status.failed 0]
     else
       let r1 := tryYtdlCore downloadId url fmt title env.e1
       r1.1 ++
         (if r1.2 then []
          else
            let r2 := tryYoutubeDlExec downloadId url fmt title env.e2
            r2.1 ++
              (if r2.2 then []
               else
                 let r3 := tryEnhancedYtDlp downloadId url fmt title env.e3
                 r3.1 ++
                   (if r3.2 then []
                    else [updStatusProgress Status.failed 0]))))

/-! ## Invocation/delay trace of the pipeline loop (for the retry claim)

The `for` loop of `downloadWithMultipleStrategies` is also embedded at
the level of observable scheduling events: which strategies get invoked
and where the fixed `setTimeout(..., 2000)` delays happen.  The outcome
of one strategy invocation is abstracted to: resolved `true`, resolved
`false`, or threw (the `catch` branch of the loop body). -/

/-- Outcome of awaiting one strategy: `ok b` — the promise resolved to
`b`; `err` — the invocation threw and the loop's `catch` swallowed it. -/
inductive SOutcome where
  | ok (b : Bool)
  | err
deriving DecidableEq, Repr

/-- An observable event of the pipeline loop: strategy `i` (0-based) is
invoked, or the loop waits `ms` milliseconds. -/
inductive PEv where
  | invoke (i : Nat)
  | delay (ms : Nat)
deriving DecidableEq, Repr

/-- The loop body from index `i` with the remaining outcomes: invoke the
strategy; on `true` return; otherwise (also when it threw) wait 2000 ms
unless this was the last strategy (`i < strategies.length - 1`, i.e. the
rest is nonempty), and continue. -/
def strategyLoop : Nat → List SOutcome → List PEv
  | _, [] => []
  | i, o :: rest =>
      PEv.invoke i ::
        (if o = SOutcome.ok true then []
         else (if rest = [] then [] else [PEv.delay 2000]) ++
           strategyLoop (i + 1) rest)

/-- The invocation/delay trace of one pipeline run whose strategy
outcomes are `outs` (in priority order). -/
def pipelineTrace (outs : List SOutcome) : List PEv :=
  strategyLoop 0 outs

/-- Specification trace of `m` consecutive failed attempts starting at
index `i`: each invocation is followed by one 2000 ms delay. -/
def failedPrefixTrace : Nat → Nat → List PEv
  | _, 0 => []
  | i, m + 1 => PEv.invoke i :: PEv.delay 2000 :: failedPrefixTrace (i + 1) m

/-- Number of delay events in a trace. -/
def countDelays : List PEv → Nat
  | [] => 0
  | PEv.delay _ :: rest => countDelays rest + 1
  | PEv.invoke _ :: rest => countDelays rest

/-! ## Request validation and routes -/

/-- A JSON field value as far as the zod schemas distinguish them:
a string, some non-string value, `null`, or the key being absent. -/
inductive JVal where
  | str (s : String)
  | other
  | null
  | absent
deriving DecidableEq, Repr

/-- The request body of `POST /api/download`, restricted to the keys
`insertDownloadSchema` picks. -/
structure ReqBody where
  youtubeUrl : JVal
  title : JVal
  duration : JVal
  thumbnail : JVal
  channel : JVal
  views : JVal
  publishDate : JVal
  format : JVal
deriving DecidableEq, Repr

/-- A required `z.string()` field (non-null text column): only a string
parses. -/
def parseStr : JVal → Option String
  | JVal.str s => some s
  | _ => none

/-- An optional nullable `z.string().nullable().optional()` field
(nullable text column): a string, `null`, or an absent key parse. -/
def parseOptStr : JVal → Option (Option String)
  | JVal.str s => some (some s)
  | JVal.null => some none
  | JVal.absent => some none
  | JVal.other => none

/-- The `format` field: the column is non-null with a default, so the
insert schema makes it `z.string().optional()` — a string or an absent
key parse, `null` does not. -/
def parseFormatField : JVal → Option (Option String)
  | JVal.str s => some (some s)
  | JVal.absent => some none
  | _ => none

/-- `insertDownloadSchema.parse(req.body)`: structural validation only —
no URL well-formedness or site-pattern check appears here. -/
def parseInsertDownload (b : ReqBody) : Option InsertDownload := do
  let youtubeUrl ← parseStr b.youtubeUrl
  let title ← parseStr b.title
  let duration ← parseOptStr b.duration
  let thumbnail ← parseOptStr b.thumbnail
  let channel ← parseOptStr b.channel
  let views ← parseOptStr b.views
  let publishDate ← parseOptStr b.publishDate
  let format ← parseFormatField b.format
  pure { youtubeUrl := youtubeUrl, title := title, duration := duration,
         thumbnail := thumbnail, channel := channel, views := views,
         publishDate := publishDate, format := format }

/-- Decidable list containment of a pattern, for the source-site check. -/
def startsWithChars : List Char → List Char → Bool
  | [], _ => true
  | _ :: _, [] => false
  | a :: as, b :: bs => a == b && startsWithChars as bs

/-- Whether `pat` occurs as a contiguous substring of `s`
(`url.includes(pat)`). -/
def containsChars (pat : List Char) : List Char → Bool
  | [] => startsWithChars pat []
  | c :: rest => startsWithChars pat (c :: rest) || containsChars pat rest

/-- The source-site pattern of `videoAnalysisSchema`'s refinement:
`url.includes("youtube.com/watch") || url.includes("youtu.be/")`.
(This check guards `POST /api/analyze` only.) -/
def matchesYoutubePattern (url : String) : Bool :=
  containsChars "youtube.com/watch".data url.data ||
    containsChars "youtu.be/".data url.data

/-- JS `format || "mp4"`: the empty string is falsy. -/
def jsOrMp4 : Option String → String
  | some s => if s = "" then "mp4" else s
  | none => "mp4"

/-- An observable step of the `POST /api/download` handler: respond with
the created record, respond with a 400 error, or launch the pipeline
task `downloadWithMultipleStrategies(id, url, format, title)`. -/
inductive SubmitStep where
  | respondRecord (d : Download)
  | respondError
  | launchPipeline (downloadId url fmt title : String)
deriving DecidableEq, Repr

/-- The `POST /api/download` handler: parse the body with
`insertDownloadSchema`; on failure respond 400 without touching the
store; otherwise create the record, respond with it, and only then
launch the download pipeline (fire and forget). -/
def postDownload (b : ReqBody) (s : MemStorage) (freshId : String)
    (now : Nat) : List SubmitStep × MemStorage :=
  match parseInsertDownload b with
  | none => ([SubmitStep.respondError], s)
  | some ins =>
      let r := createDownload s ins freshId now
      ([SubmitStep.respondRecord r.1,
        SubmitStep.launchPipeline r.1.id ins.youtubeUrl
          (jsOrMp4 ins.format) ins.title], r.2)

/-- The response of `GET /api/download/:id/file`: a 404, or the file at
`path` streamed as an attachment. -/
inductive FileResp where
  | notFound (msg : String)
  | stream (path : String)
deriving DecidableEq, Repr

/-- Whether a response is a 404. -/
def isNotFound : FileResp → Bool
  | FileResp.notFound _ => true
  | FileResp.stream _ => false

/-- The `GET /api/download/:id/file` handler: 404 unless the record
exists, its status is `"completed"` and a `filePath` is recorded; then
404 unless that path exists on disk (`diskHas`); otherwise stream the
file. -/
def getDownloadFileRoute (s : MemStorage) (id : String)
    (diskHas : String → Bool) : FileResp :=
  match getDownload s id with
  | none => FileResp.notFound "File not found or download not completed"
  | some d =>
      if d.status = Status.completed then
        match d.filePath with
        | some p =>
            if diskHas p then FileResp.stream p
            else FileResp.notFound "File not found on disk"
        | none => FileResp.notFound "File not found or download not completed"
      else FileResp.notFound "File not found or download not completed"

/-! ## Traces of record states

The record states a job goes through: the created record followed by
the state after each store update the pipeline performs. -/

/-- The status after applying one update to a record with status `st`. -/
def statusStep (st : Status) (u : DownloadUpdate) : Status :=
  u.status.getD st

/-- The status after a sequence of updates. -/
def foldStatus (st : Status) (us : List DownloadUpdate) : Status :=
  us.foldl statusStep st

/-- The record after a sequence of updates. -/
def foldUpd (d : Download) (us : List DownloadUpdate) : Download :=
  us.foldl applyUpdate d

/-- The successive record states after each update of a sequence. -/
def statesFrom (d : Download) : List DownloadUpdate → List Download
  | [] => []
  | u :: us => applyUpdate d u :: statesFrom (applyUpdate d u) us

/-- All observation points of a run: the initial record and the state
after each update. -/
def runStates (d : Download) (us : List DownloadUpdate) : List Download :=
  d :: statesFrom d us

/-- The status edges the record is allowed to take on one store update:
either no change, or one of pending→downloading,
downloading→downloading, downloading→completed, downloading→failed. -/
def allowedEdge : Status → Status → Bool
  | Status.pending, Status.pending => true
  | Status.pending, Status.downloading => true
  | Status.downloading, Status.downloading => true
  | Status.downloading, Status.completed => true
  | Status.downloading, Status.failed => true
  | Status.completed, Status.completed => true
  | Status.failed, Status.failed => true
  | _, _ => false

/-- Every consecutive pair of statuses along a run from `st` through the
updates takes an allowed edge. -/
def edgesOK : Status → List DownloadUpdate → Bool
  | _, [] => true
  | st, u :: us => allowedEdge st (statusStep st u) && edgesOK (statusStep st u) us

/-- The record invariant `outputLocation is present iff status is
completed`. -/
def fpcInv (d : Download) : Bool :=
  d.filePath.isSome = (d.status = Status.completed)

/-! ## Concrete data for witnesses and counterexamples -/

/-- The two record invariants at one observation point: the file path is
recorded iff the status is completed, and a completed status comes with
progress 100. -/
def goodState (d : Download) : Prop :=
  fpcInv d = true ∧ (d.status = Status.completed → d.progress = 100)

/-- A field accepted by a required `z.string()`. -/
def isStrField : JVal → Bool
  | JVal.str _ => true
  | _ => false

/-- A field accepted by `z.string().nullable().optional()`. -/
def isOptStrField : JVal → Bool
  | JVal.str _ => true
  | JVal.null => true
  | JVal.absent => true
  | JVal.other => false

/-- A field accepted by the optional `format` entry of the insert
schema. -/
def isFormatFieldOk : JVal → Bool
  | JVal.str _ => true
  | JVal.absent => true
  | _ => false

/-- The whole type-shape check `insertDownloadSchema` amounts to. -/
def typeWellFormed (b : ReqBody) : Bool :=
  isStrField b.youtubeUrl && isStrField b.title &&
    isOptStrField b.duration && isOptStrField b.thumbnail &&
    isOptStrField b.channel && isOptStrField b.views &&
    isOptStrField b.publishDate && isFormatFieldOk b.format

/-- A representative valid insert object. -/
def sampleIns : InsertDownload :=
  { youtubeUrl := "https://www.youtube.com/watch?v=abc"
    title := "My Video"
    duration := none
    thumbnail := none
    channel := none
    views := none
    publishDate := none
    format := some "mp4" }

/-- The record created for `sampleIns` in an empty store. -/
def sampleRecord : Download := (createDownload [] sampleIns "job-1" 0).1

/-- External behaviour for the C4 counterexample: ytdl-core accepts the
URL, finds a format, and the stream emits one progress event with
`downloaded = 199` of `total = 200` — `Math.round(99.5) = 100` — before
failing; the later strategies fail as well. -/
def cexPipelineEnv : PipelineEnv :=
  { mkdirOk := true
    e1 := { urlValid := true, getInfoThrows := false, formatFound := true,
            container := "mp4", progressEvents := [(199, 200)],
            streamFinished := false }
    e2 := { execThrows := true, foundFile := none }
    e3 := { spawnErrors := true, exitCode := 1, foundFile := none } }

/-- The record state right after that progress update. -/
def cexProgressState : Download :=
  foldUpd sampleRecord
    [updStatusProgress Status.downloading 0,
     updStatusProgress Status.downloading 10,
     updProgress (jsRound100 199 200)]

/-- External behaviour where strategy 1 succeeds at once. -/
def successPipelineEnv : PipelineEnv :=
  { mkdirOk := true
    e1 := { urlValid := true, getInfoThrows := false, formatFound := true,
            container := "mp4", progressEvents := [], streamFinished := true }
    e2 := { execThrows := true, foundFile := none }
    e3 := { spawnErrors := true, exitCode := 1, foundFile := none } }

/-- The completed record of that run. -/
def sampleCompletedState : Download :=
  foldUpd sampleRecord
    [updStatusProgress Status.downloading 0,
     updStatusProgress Status.downloading 10,
     updCompleted "downloads/My_Video.mp4"]

/-- External behaviour where every strategy fails. -/
def allFailPipelineEnv : PipelineEnv :=
  { mkdirOk := true
    e1 := { urlValid := false, getInfoThrows := false, formatFound := false,
            container := "mp4", progressEvents := [], streamFinished := false }
    e2 := { execThrows := true, foundFile := none }
    e3 := { spawnErrors := false, exitCode := 1, foundFile := none } }

/-- A submission body whose `sourceUrl` is not a well-formed URL and
matches no accepted source-site pattern, but is type-well-formed. -/
def cexBody : ReqBody :=
  { youtubeUrl := JVal.str "not a url"
    title := JVal.str "My Video"
    duration := JVal.absent
    thumbnail := JVal.absent
    channel := JVal.absent
    views := JVal.absent
    publishDate := JVal.absent
    format := JVal.str "mp4" }

/-- The insert object `cexBody` parses to. -/
def cexIns : InsertDownload :=
  { youtubeUrl := "not a url"
    title := "My Video"
    duration := none
    thumbnail := none
    channel := none
    views := none
    publishDate := none
    format := some "mp4" }

/-- A body with a malformed (non-string, non-absent) `format` field. -/
def badFormatBody : ReqBody :=
  { youtubeUrl := JVal.str "https://www.youtube.com/watch?v=abc"
    title := JVal.str "My Video"
    duration := JVal.absent
    thumbnail := JVal.absent
    channel := JVal.absent
    views := JVal.absent
    publishDate := JVal.absent
    format := JVal.other }

/-- A record still mid-download. -/
def downloadingRecord : Download :=
  { sampleRecord with
      id := "job-4"
      status := Status.downloading
      progress := 55 }

/-- A store holding one still-downloading record. -/
def pendingStore : MemStorage :=
  [("job-4", downloadingRecord)]

/-- The request body that parses to `sampleIns`. -/
def sampleBody : ReqBody :=
  { youtubeUrl := JVal.str "https://www.youtube.com/watch?v=abc"
    title := JVal.str "My Video"
    duration := JVal.absent
    thumbnail := JVal.absent
    channel := JVal.absent
    views := JVal.absent
    publishDate := JVal.absent
    format := JVal.str "mp4" }

/-! ## Generic trace lemmas -/

theorem foldUpd_cons (d : Download) (u : DownloadUpdate)
    (us : List DownloadUpdate) :
    foldUpd d (u :: us) = foldUpd (applyUpdate d u) us := rfl

theorem foldUpd_append (d : Download) (l1 l2 : List DownloadUpdate) :
    foldUpd d (l1 ++ l2) = foldUpd (foldUpd d l1) l2 :=
  List.foldl_append applyUpdate d l1 l2

theorem foldStatus_append (st : Status) (l1 l2 : List DownloadUpdate) :
    foldStatus st (l1 ++ l2) = foldStatus (foldStatus st l1) l2 :=
  List.foldl_append statusStep st l1 l2

theorem statesFrom_append (d : Download) (l1 l2 : List DownloadUpdate) :
    statesFrom d (l1 ++ l2) = statesFrom d l1 ++ statesFrom (foldUpd d l1) l2 := by
  induction l1 generalizing d with
  | nil => rfl
  | cons u us ih => simp [statesFrom, foldUpd_cons, ih]

theorem allowedEdge_refl (st : Status) : allowedEdge st st = true := by
  cases st <;> rfl

theorem edgesOK_append (st : Status) (l1 l2 : List DownloadUpdate) :
    edgesOK st (l1 ++ l2)
      = (edgesOK st l1 && edgesOK (foldStatus st l1) l2) := by
  induction l1 generalizing st with
  | nil => simp [edgesOK, foldStatus]
  | cons u us ih =>
      simp [edgesOK, foldStatus, List.foldl_cons, ih, Bool.and_assoc]

/-! ## Progress updates leave status and file path alone -/

theorem applyUpdate_updProgress (d : Download) (p : Int) :
    (applyUpdate d (updProgress p)).status = d.status ∧
    (applyUpdate d (updProgress p)).filePath = d.filePath ∧
    (applyUpdate d (updProgress p)).progress = p := by
  simp [applyUpdate, updProgress]

theorem foldStatus_progressOps (st : Status) (evs : List (Nat × Nat)) :
    foldStatus st (progressOps evs) = st := by
  induction evs with
  | nil => rfl
  | cons ev rest ih =>
      simp [progressOps, foldStatus, List.foldl_cons, statusStep,
        updProgress] at ih ⊢
      exact ih

theorem edgesOK_progressOps (st : Status) (evs : List (Nat × Nat)) :
    edgesOK st (progressOps evs) = true := by
  induction evs with
  | nil => rfl
  | cons ev rest ih =>
      simp [progressOps, edgesOK, statusStep, updProgress,
        allowedEdge_refl] at ih ⊢
      exact ih

theorem statesFrom_progressOps (d : Download) (evs : List (Nat × Nat)) :
    ∀ d' ∈ statesFrom d (progressOps evs),
      d'.status = d.status ∧ d'.filePath = d.filePath := by
  induction evs generalizing d with
  | nil => intro d' h; cases h
  | cons ev rest ih =>
      intro d' h
      simp only [progressOps, List.map_cons, statesFrom, List.mem_cons] at h
      rcases h with h | h
      · subst h
        exact ⟨(applyUpdate_updProgress d _).1, (applyUpdate_updProgress d _).2.1⟩
      · have := ih (applyUpdate d (updProgress (jsRound100 ev.1 ev.2))) d' (by
          simpa [progressOps] using h)
        rw [this.1, this.2, (applyUpdate_updProgress d _).1,
          (applyUpdate_updProgress d _).2.1]
        exact ⟨rfl, rfl⟩

theorem foldUpd_progressOps (d : Download) (evs : List (Nat × Nat)) :
    (foldUpd d (progressOps evs)).status = d.status ∧
    (foldUpd d (progressOps evs)).filePath = d.filePath := by
  induction evs generalizing d with
  | nil => exact ⟨rfl, rfl⟩
  | cons ev rest ih =>
      simp only [progressOps, List.map_cons, foldUpd_cons]
      have h := ih (applyUpdate d (updProgress (jsRound100 ev.1 ev.2)))
      simp only [progressOps] at h
      rw [h.1, h.2, (applyUpdate_updProgress d _).1,
        (applyUpdate_updProgress d _).2.1]
      exact ⟨rfl, rfl⟩

theorem applyUpdate_updStatusProgress (d : Download) (st : Status) (p : Int) :
    (applyUpdate d (updStatusProgress st p)).status = st ∧
    (applyUpdate d (updStatusProgress st p)).progress = p ∧
    (applyUpdate d (updStatusProgress st p)).filePath = d.filePath := by
  simp [applyUpdate, updStatusProgress]

theorem applyUpdate_updCompleted (d : Download) (p : String) :
    (applyUpdate d (updCompleted p)).status = Status.completed ∧
    (applyUpdate d (updCompleted p)).progress = 100 ∧
    (applyUpdate d (updCompleted p)).filePath = some p := by
  simp [applyUpdate, updCompleted]

/-! ## Per-strategy facts

Each strategy is entered with the record in state `downloading` (the
pipeline marks it so before strategy 1, and a failed strategy leaves it
so).  The lemmas: its updates take only allowed status edges, its final
status is `completed` exactly when it resolves `true`, every
intermediate state satisfies the two record invariants, and a failed
strategy leaves the record `downloading` with no file path. -/

theorem tryYtdlCore_edges (i u f t : String) (e : YtdlEnv) :
    edgesOK Status.downloading (tryYtdlCore i u f t e).1 = true := by
  rcases e with ⟨uv, git, ff, cont, evs, sf⟩
  cases uv <;> cases git <;> cases ff <;> cases sf <;>
    simp [tryYtdlCore, edgesOK, statusStep, updStatusProgress, updCompleted,
      edgesOK_append, foldStatus_progressOps, edgesOK_progressOps,
      allowedEdge]

theorem foldStatus_nil (st : Status) : foldStatus st [] = st := rfl

theorem foldStatus_cons (st : Status) (u : DownloadUpdate)
    (us : List DownloadUpdate) :
    foldStatus st (u :: us) = foldStatus (statusStep st u) us := rfl

theorem statusStep_updStatusProgress (st st2 : Status) (p : Int) :
    statusStep st (updStatusProgress st2 p) = st2 := rfl

theorem statusStep_updCompleted (st : Status) (p : String) :
    statusStep st (updCompleted p) = Status.completed := rfl

theorem foldUpd_nil (d : Download) : foldUpd d [] = d := rfl

theorem tryYtdlCore_foldStatus (i u f t : String) (e : YtdlEnv) :
    foldStatus Status.downloading (tryYtdlCore i u f t e).1
      = (if (tryYtdlCore i u f t e).2 then Status.completed
         else Status.downloading) := by
  rcases e with ⟨uv, git, ff, cont, evs, sf⟩
  cases uv <;> cases git <;> cases ff <;> cases sf <;>
    simp [tryYtdlCore, foldStatus_cons, foldStatus_nil, foldStatus_append,
      foldStatus_progressOps, statusStep_updStatusProgress,
      statusStep_updCompleted]

theorem tryYtdlCore_foldUpd_false (i u f t : String) (e : YtdlEnv)
    (hres : (tryYtdlCore i u f t e).2 = false) (d : Download) :
    (foldUpd d (tryYtdlCore i u f t e).1).status = Status.downloading ∨
      foldUpd d (tryYtdlCore i u f t e).1 = d := by
  rcases e with ⟨uv, git, ff, cont, evs, sf⟩
  cases uv with
  | false => right; simp [tryYtdlCore, foldUpd_nil]
  | true =>
    cases git with
    | true => left; simp [tryYtdlCore, foldUpd, applyUpdate, updStatusProgress]
    | false =>
      cases ff with
      | false =>
          left; simp [tryYtdlCore, foldUpd, applyUpdate, updStatusProgress]
      | true =>
        cases sf with
        | true => exact absurd hres (by simp [tryYtdlCore])
        | false =>
          left
          have h := foldUpd_progressOps
            (applyUpdate d (updStatusProgress Status.downloading 10)) evs
          simp only [tryYtdlCore, Bool.not_true, Bool.not_false,
            if_neg, if_pos, Bool.false_eq_true, if_false, ite_false,
            foldUpd_cons]
          rw [h.1]
          exact (applyUpdate_updStatusProgress d Status.downloading 10).1

theorem goodState_updStatusProgress (d : Download) (hfp : d.filePath = none)
    (st : Status) (hst : st ≠ Status.completed) (p : Int) :
    goodState (applyUpdate d (updStatusProgress st p)) := by
  constructor
  · simp [fpcInv, applyUpdate, updStatusProgress, hfp, hst]
  · intro hc
    exact absurd (((applyUpdate_updStatusProgress d st p).1).symm.trans hc) hst

theorem goodState_updCompleted (d : Download) (p : String) :
    goodState (applyUpdate d (updCompleted p)) := by
  constructor
  · simp [fpcInv, (applyUpdate_updCompleted d p).1,
      (applyUpdate_updCompleted d p).2.2]
  · intro _; exact (applyUpdate_updCompleted d p).2.1

theorem tryYtdlCore_states (i u f t : String) (e : YtdlEnv) (d : Download)
    (hfp : d.filePath = none) :
    ∀ d' ∈ statesFrom d (tryYtdlCore i u f t e).1, goodState d' := by
  have hs1 : (applyUpdate d (updStatusProgress Status.downloading 10)).status
      = Status.downloading := (applyUpdate_updStatusProgress d _ _).1
  have hf1 : (applyUpdate d (updStatusProgress Status.downloading 10)).filePath
      = none := by
    rw [(applyUpdate_updStatusProgress d _ _).2.2, hfp]
  rcases e with ⟨uv, git, ff, cont, evs, sf⟩
  cases uv with
  | false => intro d' h; simp [tryYtdlCore, statesFrom] at h
  | true =>
    cases git with
    | true =>
        intro d' h
        simp only [tryYtdlCore, Bool.not_true, Bool.not_false, if_true,
          if_false, ite_true, ite_false, statesFrom, List.mem_cons,
          List.not_mem_nil, or_false] at h
        subst h
        exact goodState_updStatusProgress d hfp Status.downloading (by simp) 10
    | false =>
      cases ff with
      | false =>
          intro d' h
          simp only [tryYtdlCore, Bool.not_true, Bool.not_false, if_true,
            if_false, ite_true, ite_false, statesFrom, List.mem_cons,
            List.not_mem_nil, or_false] at h
          subst h
          exact goodState_updStatusProgress d hfp Status.downloading (by simp) 10
      | true =>
        cases sf with
        | false =>
            intro d' h
            simp only [tryYtdlCore, Bool.not_true, Bool.not_false, if_true,
              if_false, ite_true, ite_false, statesFrom, List.mem_cons] at h
            rcases h with h | h
            · subst h
              exact goodState_updStatusProgress d hfp Status.downloading
                (by simp) 10
            · have hps := statesFrom_progressOps
                (applyUpdate d (updStatusProgress Status.downloading 10)) evs d' h
              constructor
              · simp [fpcInv, hps.1, hps.2, hs1, hf1]
              · intro hc
                rw [hps.1, hs1] at hc
                exact absurd hc (by simp)
        | true =>
            intro d' h
            simp only [tryYtdlCore, Bool.not_true, Bool.not_false, if_true,
              if_false, ite_true, ite_false, statesFrom, List.mem_cons] at h
            rcases h with h | h
            · subst h
              exact goodState_updStatusProgress d hfp Status.downloading
                (by simp) 10
            · rw [List.append_eq, statesFrom_append] at h
              rcases List.mem_append.mp h with h | h
              · have hps := statesFrom_progressOps
                  (applyUpdate d (updStatusProgress Status.downloading 10)) evs d' h
                constructor
                · simp [fpcInv, hps.1, hps.2, hs1, hf1]
                · intro hc
                  rw [hps.1, hs1] at hc
                  exact absurd hc (by simp)
              · simp only [statesFrom, List.mem_cons, List.not_mem_nil,
                  or_false] at h
                subst h
                exact goodState_updCompleted _ _

theorem tryYoutubeDlExec_edges (i u f t : String) (e : ExecEnv) :
    edgesOK Status.downloading (tryYoutubeDlExec i u f t e).1 = true := by
  rcases e with ⟨et, ff⟩
  cases et <;> cases ff <;>
    simp [tryYoutubeDlExec, edgesOK, statusStep, updStatusProgress,
      updCompleted, allowedEdge]

theorem tryYoutubeDlExec_foldStatus (i u f t : String) (e : ExecEnv) :
    foldStatus Status.downloading (tryYoutubeDlExec i u f t e).1
      = (if (tryYoutubeDlExec i u f t e).2 then Status.completed
         else Status.downloading) := by
  rcases e with ⟨et, ff⟩
  cases et <;> cases ff <;>
    simp [tryYoutubeDlExec, foldStatus_cons, foldStatus_nil,
      statusStep_updStatusProgress, statusStep_updCompleted]

theorem tryYoutubeDlExec_foldUpd_false (i u f t : String) (e : ExecEnv)
    (hres : (tryYoutubeDlExec i u f t e).2 = false) (d : Download) :
    (foldUpd d (tryYoutubeDlExec i u f t e).1).status = Status.downloading ∨
      foldUpd d (tryYoutubeDlExec i u f t e).1 = d := by
  rcases e with ⟨et, ff⟩
  cases et with
  | true =>
      left; simp [tryYoutubeDlExec, foldUpd, applyUpdate, updStatusProgress]
  | false =>
    cases ff with
    | some fl => exact absurd hres (by simp [tryYoutubeDlExec])
    | none =>
        left
        simp [tryYoutubeDlExec, foldUpd, applyUpdate, updStatusProgress]

theorem tryYoutubeDlExec_states (i u f t : String) (e : ExecEnv)
    (d : Download) (hfp : d.filePath = none) :
    ∀ d' ∈ statesFrom d (tryYoutubeDlExec i u f t e).1, goodState d' := by
  rcases e with ⟨et, ff⟩
  cases et with
  | true =>
      intro d' h
      simp only [tryYoutubeDlExec, if_true, ite_true, statesFrom,
        List.mem_cons, List.not_mem_nil, or_false] at h
      subst h
      exact goodState_updStatusProgress d hfp Status.downloading (by simp) 20
  | false =>
    cases ff with
    | none =>
        intro d' h
        simp only [tryYoutubeDlExec, if_false, ite_false, statesFrom,
          List.mem_cons, List.not_mem_nil, or_false] at h
        subst h
        exact goodState_updStatusProgress d hfp Status.downloading (by simp) 20
    | some fl =>
        intro d' h
        simp only [tryYoutubeDlExec, if_false, ite_false, statesFrom,
          List.mem_cons, List.not_mem_nil, or_false] at h
        rcases h with h | h
        · subst h
          exact goodState_updStatusProgress d hfp Status.downloading
            (by simp) 20
        · subst h
          exact goodState_updCompleted _ _

theorem tryEnhancedYtDlp_edges (i u f t : String) (e : EnhancedEnv) :
    edgesOK Status.downloading (tryEnhancedYtDlp i u f t e).1 = true := by
  rcases e with ⟨se, ec, ff⟩
  cases se with
  | true =>
      simp [tryEnhancedYtDlp, edgesOK, statusStep, updStatusProgress,
        allowedEdge]
  | false =>
    by_cases hec : ec = 0 <;> cases ff <;>
      simp [tryEnhancedYtDlp, hec, edgesOK, statusStep, updStatusProgress,
        updCompleted, allowedEdge]

theorem tryEnhancedYtDlp_foldStatus (i u f t : String) (e : EnhancedEnv) :
    foldStatus Status.downloading (tryEnhancedYtDlp i u f t e).1
      = (if (tryEnhancedYtDlp i u f t e).2 then Status.completed
         else Status.downloading) := by
  rcases e with ⟨se, ec, ff⟩
  cases se with
  | true =>
      simp [tryEnhancedYtDlp, foldStatus_cons, foldStatus_nil,
        statusStep_updStatusProgress]
  | false =>
    by_cases hec : ec = 0 <;> cases ff <;>
      simp [tryEnhancedYtDlp, hec, foldStatus_cons, foldStatus_nil,
        statusStep_updStatusProgress, statusStep_updCompleted]

theorem tryEnhancedYtDlp_foldUpd_false (i u f t : String) (e : EnhancedEnv)
    (hres : (tryEnhancedYtDlp i u f t e).2 = false) (d : Download) :
    (foldUpd d (tryEnhancedYtDlp i u f t e).1).status = Status.downloading ∨
      foldUpd d (tryEnhancedYtDlp i u f t e).1 = d := by
  rcases e with ⟨se, ec, ff⟩
  cases se with
  | true =>
      left; simp [tryEnhancedYtDlp, foldUpd, applyUpdate, updStatusProgress]
  | false =>
    by_cases hec : ec = 0
    · cases ff with
      | some fl => exact absurd hres (by simp [tryEnhancedYtDlp, hec])
      | none =>
          left
          simp [tryEnhancedYtDlp, hec, foldUpd, applyUpdate, updStatusProgress]
    · left
      simp [tryEnhancedYtDlp, hec, foldUpd, applyUpdate, updStatusProgress]

theorem tryEnhancedYtDlp_states (i u f t : String) (e : EnhancedEnv)
    (d : Download) (hfp : d.filePath = none) :
    ∀ d' ∈ statesFrom d (tryEnhancedYtDlp i u f t e).1, goodState d' := by
  rcases e with ⟨se, ec, ff⟩
  cases se with
  | true =>
      intro d' h
      simp only [tryEnhancedYtDlp, if_true, ite_true, statesFrom,
        List.mem_cons, List.not_mem_nil, or_false] at h
      subst h
      exact goodState_updStatusProgress d hfp Status.downloading (by simp) 30
  | false =>
    by_cases hec : ec = 0
    · cases ff with
      | none =>
          intro d' h
          simp only [tryEnhancedYtDlp, hec, if_false, ite_false, if_true,
            ite_true, statesFrom, List.mem_cons, List.not_mem_nil,
            or_false] at h
          subst h
          exact goodState_updStatusProgress d hfp Status.downloading
            (by simp) 30
      | some fl =>
          intro d' h
          simp only [tryEnhancedYtDlp, hec, if_false, ite_false, if_true,
            ite_true, statesFrom, List.mem_cons, List.not_mem_nil,
            or_false] at h
          rcases h with h | h
          · subst h
            exact goodState_updStatusProgress d hfp Status.downloading
              (by simp) 30
          · subst h
            exact goodState_updCompleted _ _
    · intro d' h
      simp only [tryEnhancedYtDlp, hec, if_false, ite_false, statesFrom,
        List.mem_cons, List.not_mem_nil, or_false] at h
      subst h
      exact goodState_updStatusProgress d hfp Status.downloading (by simp) 30

theorem tryYtdlCore_foldUpd_filePath (i u f t : String) (e : YtdlEnv)
    (hres : (tryYtdlCore i u f t e).2 = false) (d : Download)
    (hfp : d.filePath = none) :
    (foldUpd d (tryYtdlCore i u f t e).1).filePath = none := by
  rcases e with ⟨uv, git, ff, cont, evs, sf⟩
  cases uv with
  | false => simpa [tryYtdlCore, foldUpd_nil] using hfp
  | true =>
    cases git with
    | true =>
        simp [tryYtdlCore, foldUpd, applyUpdate, updStatusProgress, hfp]
    | false =>
      cases ff with
      | false =>
          simp [tryYtdlCore, foldUpd, applyUpdate, updStatusProgress, hfp]
      | true =>
        cases sf with
        | true => exact absurd hres (by simp [tryYtdlCore])
        | false =>
          have h := foldUpd_progressOps
            (applyUpdate d (updStatusProgress Status.downloading 10)) evs
          simp only [tryYtdlCore, Bool.not_true, Bool.not_false,
            if_neg, if_pos, Bool.false_eq_true, if_false, ite_false,
            foldUpd_cons]
          rw [h.2, (applyUpdate_updStatusProgress d Status.downloading 10).2.2]
          exact hfp

theorem tryYoutubeDlExec_foldUpd_filePath (i u f t : String) (e : ExecEnv)
    (hres : (tryYoutubeDlExec i u f t e).2 = false) (d : Download)
    (hfp : d.filePath = none) :
    (foldUpd d (tryYoutubeDlExec i u f t e).1).filePath = none := by
  rcases e with ⟨et, ff⟩
  cases et with
  | true =>
      simp [tryYoutubeDlExec, foldUpd, applyUpdate, updStatusProgress, hfp]
  | false =>
    cases ff with
    | some fl => exact absurd hres (by simp [tryYoutubeDlExec])
    | none =>
        simp [tryYoutubeDlExec, foldUpd, applyUpdate, updStatusProgress, hfp]

theorem tryEnhancedYtDlp_foldUpd_filePath (i u f t : String)
    (e : EnhancedEnv) (hres : (tryEnhancedYtDlp i u f t e).2 = false)
    (d : Download) (hfp : d.filePath = none) :
    (foldUpd d (tryEnhancedYtDlp i u f t e).1).filePath = none := by
  rcases e with ⟨se, ec, ff⟩
  cases se with
  | true =>
      simp [tryEnhancedYtDlp, foldUpd, applyUpdate, updStatusProgress, hfp]
  | false =>
    by_cases hec : ec = 0
    · cases ff with
      | some fl => exact absurd hres (by simp [tryEnhancedYtDlp, hec])
      | none =>
          simp [tryEnhancedYtDlp, hec, foldUpd, applyUpdate,
            updStatusProgress, hfp]
    · simp [tryEnhancedYtDlp, hec, foldUpd, applyUpdate,
        updStatusProgress, hfp]

/-! ## Pipeline-level facts -/

/-- Every observation point of a full job run — the freshly created
record and each state after one of the pipeline's store updates —
satisfies both record invariants. -/
theorem pipeline_states_good (s : MemStorage) (ins : InsertDownload)
    (fid : String) (now : Nat) (i u f t : String) (env : PipelineEnv) :
    ∀ d' ∈ runStates (createDownload s ins fid now).1
        (downloadWithMultipleStrategies i u f t env), goodState d' := by
  intro d' h
  have hd0fp : (createDownload s ins fid now).1.filePath = none := rfl
  have hd0st : (createDownload s ins fid now).1.status = Status.pending := rfl
  rw [runStates, List.mem_cons] at h
  rcases h with h | h
  · subst h
    refine ⟨by simp [fpcInv, hd0fp, hd0st], ?_⟩
    intro hc
    rw [hd0st] at hc
    cases hc
  · rw [downloadWithMultipleStrategies, statesFrom, List.mem_cons] at h
    set d1 := applyUpdate (createDownload s ins fid now).1
      (updStatusProgress Status.downloading 0) with hd1
    have hd1fp : d1.filePath = none := by
      rw [hd1, (applyUpdate_updStatusProgress _ _ _).2.2, hd0fp]
    rcases h with h | h
    · subst h
      exact goodState_updStatusProgress _ hd0fp Status.downloading (by simp) 0
    · cases hmk : env.mkdirOk with
      | false =>
          rw [hmk] at h
          simp only [Bool.not_false, if_true, ite_true, statesFrom,
            List.mem_cons, List.not_mem_nil, or_false] at h
          subst h
          exact goodState_updStatusProgress _ hd1fp Status.failed (by simp) 0
      | true =>
          rw [hmk] at h
          simp only [Bool.not_true, Bool.false_eq_true, if_false,
            ite_false] at h
          rw [statesFrom_append, List.mem_append] at h
          rcases h with h | h
          · exact tryYtdlCore_states i u f t env.e1 d1 hd1fp d' h
          · by_cases h1 : (tryYtdlCore i u f t env.e1).2
            · rw [if_pos h1] at h
              cases h
            · rw [if_neg h1] at h
              set d2 := foldUpd d1 (tryYtdlCore i u f t env.e1).1 with hd2
              have hd2fp : d2.filePath = none :=
                tryYtdlCore_foldUpd_filePath i u f t env.e1
                  (Bool.not_eq_true _ ▸ Bool.of_not_eq_true h1) d1 hd1fp
              rw [statesFrom_append, List.mem_append] at h
              rcases h with h | h
              · exact tryYoutubeDlExec_states i u f t env.e2 d2 hd2fp d' h
              · by_cases h2 : (tryYoutubeDlExec i u f t env.e2).2
                · rw [if_pos h2] at h
                  cases h
                · rw [if_neg h2] at h
                  set d3 := foldUpd d2 (tryYoutubeDlExec i u f t env.e2).1
                    with hd3
                  have hd3fp : d3.filePath = none :=
                    tryYoutubeDlExec_foldUpd_filePath i u f t env.e2
                      (Bool.not_eq_true _ ▸ Bool.of_not_eq_true h2) d2 hd2fp
                  rw [statesFrom_append, List.mem_append] at h
                  rcases h with h | h
                  · exact tryEnhancedYtDlp_states i u f t env.e3 d3 hd3fp d' h
                  · by_cases h3 : (tryEnhancedYtDlp i u f t env.e3).2
                    · rw [if_pos h3] at h
                      cases h
                    · rw [if_neg h3] at h
                      set d4 := foldUpd d3 (tryEnhancedYtDlp i u f t env.e3).1
                        with hd4
                      have hd4fp : d4.filePath = none :=
                        tryEnhancedYtDlp_foldUpd_filePath i u f t env.e3
                          (Bool.not_eq_true _ ▸ Bool.of_not_eq_true h3) d3 hd3fp
                      simp only [statesFrom, List.mem_cons, List.not_mem_nil,
                        or_false] at h
                      subst h
                      exact goodState_updStatusProgress _ hd4fp Status.failed
                        (by simp) 0

/-- Claim C2: over every full job run — the freshly created record
followed by the store updates the pipeline performs for any external
behaviour — the `status` field only ever changes along the edges
pending→downloading, downloading→downloading, downloading→completed and
downloading→failed; in particular no update ever moves a record out of
`completed` or `failed` (`allowedEdge` admits no such edge). -/
theorem pipeline_edgesOK (s : MemStorage) (ins : InsertDownload)
    (fid : String) (now : Nat) (i u f t : String) (env : PipelineEnv) :
    edgesOK (createDownload s ins fid now).1.status
      (downloadWithMultipleStrategies i u f t env) = true := by
  have hst : (createDownload s ins fid now).1.status = Status.pending := rfl
  rw [hst, downloadWithMultipleStrategies]
  cases hmk : env.mkdirOk with
  | false =>
      simp [edgesOK, statusStep_updStatusProgress, allowedEdge]
  | true =>
      by_cases h1 : (tryYtdlCore i u f t env.e1).2
      · simp [h1, edgesOK, statusStep_updStatusProgress, allowedEdge,
          edgesOK_append, tryYtdlCore_edges, tryYtdlCore_foldStatus]
      · by_cases h2 : (tryYoutubeDlExec i u f t env.e2).2
        · simp [h1, h2, edgesOK, statusStep_updStatusProgress, allowedEdge,
            edgesOK_append, tryYtdlCore_edges, tryYtdlCore_foldStatus,
            tryYoutubeDlExec_edges, tryYoutubeDlExec_foldStatus]
        · by_cases h3 : (tryEnhancedYtDlp i u f t env.e3).2
          · simp [h1, h2, h3, edgesOK, statusStep_updStatusProgress,
              allowedEdge, edgesOK_append, tryYtdlCore_edges,
              tryYtdlCore_foldStatus, tryYoutubeDlExec_edges,
              tryYoutubeDlExec_foldStatus, tryEnhancedYtDlp_edges,
              tryEnhancedYtDlp_foldStatus]
          · simp [h1, h2, h3, edgesOK, statusStep_updStatusProgress,
              allowedEdge, edgesOK_append, tryYtdlCore_edges,
              tryYtdlCore_foldStatus, tryYoutubeDlExec_edges,
              tryYoutubeDlExec_foldStatus, tryEnhancedYtDlp_edges,
              tryEnhancedYtDlp_foldStatus]

/-- Claim C5: when every strategy executor resolves `false` (in this
embedding an executor invocation never throws, see claim C6; a throw of
the setup itself is the `mkdirOk = false` case, covered too), the
pipeline terminates with the record's final status `failed` and final
progress 0. -/
theorem pipeline_all_failed_final (s : MemStorage) (ins : InsertDownload)
    (fid : String) (now : Nat) (i u f t : String) (env : PipelineEnv)
    (h1 : (tryYtdlCore i u f t env.e1).2 = false)
    (h2 : (tryYoutubeDlExec i u f t env.e2).2 = false)
    (h3 : (tryEnhancedYtDlp i u f t env.e3).2 = false) :
    (foldUpd (createDownload s ins fid now).1
        (downloadWithMultipleStrategies i u f t env)).status = Status.failed ∧
    (foldUpd (createDownload s ins fid now).1
        (downloadWithMultipleStrategies i u f t env)).progress = 0 := by
  rw [downloadWithMultipleStrategies]
  cases hmk : env.mkdirOk with
  | false =>
      constructor <;>
        simp [foldUpd, applyUpdate, updStatusProgress]
  | true =>
      simp only [Bool.not_true, Bool.false_eq_true, if_false, ite_false,
        h1, h2, h3, foldUpd_cons, foldUpd_append, foldUpd_nil]
      constructor <;>
        simp [foldUpd, applyUpdate, updStatusProgress]

/-! ## Facts about the invocation/delay trace -/

theorem countDelays_append (l1 l2 : List PEv) :
    countDelays (l1 ++ l2) = countDelays l1 + countDelays l2 := by
  induction l1 with
  | nil => simp [countDelays]
  | cons x rest ih =>
      cases x <;> simp [countDelays, ih] <;> try omega

theorem countDelays_failedPrefixTrace (i m : Nat) :
    countDelays (failedPrefixTrace i m) = m := by
  induction m generalizing i with
  | zero => rfl
  | succ m ih => simp [failedPrefixTrace, countDelays, ih]

theorem mem_invoke_failedPrefixTrace (m : Nat) :
    ∀ (i j : Nat), (PEv.invoke j ∈ failedPrefixTrace i m ↔ i ≤ j ∧ j < i + m) := by
  induction m with
  | zero => intro i j; simp [failedPrefixTrace]; try omega
  | succ m ih =>
      intro i j
      simp [failedPrefixTrace, List.mem_cons, ih (i + 1) j]
      omega

/-- The loop from index `i`: when every outcome before the first
resolved-`true` one is a failure, the trace is the failed attempts (each
followed by one 2000 ms delay) and then the successful invocation. -/
theorem strategyLoop_first_success (post : List SOutcome) :
    ∀ (pre : List SOutcome) (i : Nat), (∀ o ∈ pre, o ≠ SOutcome.ok true) →
      strategyLoop i (pre ++ SOutcome.ok true :: post)
        = failedPrefixTrace i pre.length ++ [PEv.invoke (i + pre.length)] := by
  intro pre
  induction pre with
  | nil =>
      intro i _
      simp [strategyLoop, failedPrefixTrace]
  | cons o rest ih =>
      intro i hpre
      have ho : ¬ (o = SOutcome.ok true) := hpre o (List.mem_cons_self o rest)
      have hne : ¬ (rest ++ SOutcome.ok true :: post = []) := by simp
      rw [List.cons_append, strategyLoop, if_neg ho, if_neg hne]
      rw [ih (i + 1) (fun o' ho' => hpre o' (List.mem_cons_of_mem o ho'))]
      simp [failedPrefixTrace]
      omega

/-! ## What the insert schema actually validates -/

theorem parseStr_isSome (v : JVal) : (parseStr v).isSome = isStrField v := by
  cases v <;> rfl

theorem parseOptStr_isSome (v : JVal) :
    (parseOptStr v).isSome = isOptStrField v := by
  cases v <;> rfl

theorem parseFormatField_isSome (v : JVal) :
    (parseFormatField v).isSome = isFormatFieldOk v := by
  cases v <;> rfl

/-- `insertDownloadSchema` succeeds exactly on type-well-formed bodies:
it inspects the shape of each field and nothing else. -/
theorem parseInsertDownload_isSome (b : ReqBody) :
    (parseInsertDownload b).isSome = typeWellFormed b := by
  rw [typeWellFormed, ← parseStr_isSome b.youtubeUrl, ← parseStr_isSome b.title,
    ← parseOptStr_isSome b.duration, ← parseOptStr_isSome b.thumbnail,
    ← parseOptStr_isSome b.channel, ← parseOptStr_isSome b.views,
    ← parseOptStr_isSome b.publishDate, ← parseFormatField_isSome b.format]
  cases hyu : parseStr b.youtubeUrl with
  | none => simp [parseInsertDownload, hyu]
  | some yu =>
    cases hti : parseStr b.title with
    | none => simp [parseInsertDownload, hyu, hti]
    | some ti =>
      cases hdu : parseOptStr b.duration with
      | none => simp [parseInsertDownload, hyu, hti, hdu]
      | some du =>
        cases hth : parseOptStr b.thumbnail with
        | none => simp [parseInsertDownload, hyu, hti, hdu, hth]
        | some th =>
          cases hch : parseOptStr b.channel with
          | none => simp [parseInsertDownload, hyu, hti, hdu, hth, hch]
          | some ch =>
            cases hvw : parseOptStr b.views with
            | none => simp [parseInsertDownload, hyu, hti, hdu, hth, hch, hvw]
            | some vw =>
              cases hpd : parseOptStr b.publishDate with
              | none =>
                  simp [parseInsertDownload, hyu, hti, hdu, hth, hch, hvw, hpd]
              | some pd =>
                cases hfo : parseFormatField b.format with
                | none =>
                    simp [parseInsertDownload, hyu, hti, hdu, hth, hch, hvw,
                      hpd, hfo]
                | some fo =>
                    simp [parseInsertDownload, hyu, hti, hdu, hth, hch, hvw,
                      hpd, hfo]

/-! ## Claim theorems, counterexamples and witnesses -/

/-- Claim C1: if strategy `k` (1-indexed; here `k = pre.length + 1`
with `pre` the outcomes of the failed attempts before it) is the first
whose invocation resolves `true`, the pipeline's invocation/delay trace
is exactly: attempts `1..k-1`, each followed by one fixed 2000 ms
delay, then the invocation of attempt `k`.  Consequently exactly `k-1`
delays are performed, and strategy `j` is invoked iff `j ≤ k` (0-based:
`j < k`). -/
theorem pipeline_first_success_trace (pre post : List SOutcome)
    (hpre : ∀ o ∈ pre, o ≠ SOutcome.ok true) :
    pipelineTrace (pre ++ SOutcome.ok true :: post)
        = failedPrefixTrace 0 pre.length ++ [PEv.invoke pre.length]
    ∧ countDelays (pipelineTrace (pre ++ SOutcome.ok true :: post))
        = pre.length
    ∧ ∀ j, PEv.invoke j ∈ pipelineTrace (pre ++ SOutcome.ok true :: post)
        ↔ j < pre.length + 1 := by
  have hmain : pipelineTrace (pre ++ SOutcome.ok true :: post)
      = failedPrefixTrace 0 pre.length ++ [PEv.invoke (0 + pre.length)] :=
    strategyLoop_first_success post pre 0 hpre
  rw [Nat.zero_add] at hmain
  refine ⟨hmain, ?_, ?_⟩
  · rw [hmain, countDelays_append, countDelays_failedPrefixTrace]
    simp [countDelays]
  · intro j
    rw [hmain, List.mem_append]
    simp [mem_invoke_failedPrefixTrace pre.length 0 j]
    omega

theorem pipeline_first_success_trace_witness :
    (∀ o ∈ [SOutcome.ok false, SOutcome.err], o ≠ SOutcome.ok true)
    ∧ pipelineTrace
        ([SOutcome.ok false, SOutcome.err] ++
          SOutcome.ok true :: [SOutcome.ok false])
        = failedPrefixTrace 0 2 ++ [PEv.invoke 2] :=
  ⟨by decide,
   (pipeline_first_success_trace [SOutcome.ok false, SOutcome.err]
      [SOutcome.ok false] (by decide)).1⟩

/-- Claim C3: at every observation point of a job's lifecycle — the
created record and the state after each store update of the pipeline —
the recorded output path (`filePath`) is present iff the status is
`completed`. -/
theorem outputLocation_iff_completed (s : MemStorage) (ins : InsertDownload)
    (fid : String) (now : Nat) (i u f t : String) (env : PipelineEnv) :
    ∀ d' ∈ runStates (createDownload s ins fid now).1
        (downloadWithMultipleStrategies i u f t env),
      fpcInv d' = true :=
  fun d' h => (pipeline_states_good s ins fid now i u f t env d' h).1

/-- Claim C4 (amended direction): at every observation point,
`status == completed` implies `progress == 100`.  (The converse is
false — see the counterexample below.) -/
theorem completed_implies_progress100 (s : MemStorage) (ins : InsertDownload)
    (fid : String) (now : Nat) (i u f t : String) (env : PipelineEnv) :
    ∀ d' ∈ runStates (createDownload s ins fid now).1
        (downloadWithMultipleStrategies i u f t env),
      d'.status = Status.completed → d'.progress = 100 :=
  fun d' h => (pipeline_states_good s ins fid now i u f t env d' h).2

/-- Claim C4 is false as stated: in this reachable run the record
observes `progress = 100` while its status is still `downloading` (the
stream progress handler stores `Math.round((downloaded / total) * 100)`
with no guard, here `Math.round((199 / 200) * 100) = 100`). -/
theorem progress100_while_downloading_cex :
    cexProgressState ∈ runStates sampleRecord
        (downloadWithMultipleStrategies "job-1"
          "https://www.youtube.com/watch?v=abc" "mp4" "My Video"
          cexPipelineEnv)
    ∧ cexProgressState.progress = 100
    ∧ cexProgressState.status = Status.downloading := by
  refine ⟨by decide, by decide, by decide⟩

theorem outputLocation_iff_completed_witness :
    sampleRecord ∈ runStates sampleRecord
        (downloadWithMultipleStrategies "job-1"
          "https://www.youtube.com/watch?v=abc" "mp4" "My Video"
          cexPipelineEnv)
    ∧ fpcInv sampleRecord = true :=
  ⟨by decide,
   outputLocation_iff_completed [] sampleIns "job-1" 0 "job-1"
     "https://www.youtube.com/watch?v=abc" "mp4" "My Video" cexPipelineEnv
     sampleRecord (by decide)⟩

theorem completed_implies_progress100_witness :
    sampleCompletedState ∈ runStates sampleRecord
        (downloadWithMultipleStrategies "job-1"
          "https://www.youtube.com/watch?v=abc" "mp4" "My Video"
          successPipelineEnv)
    ∧ sampleCompletedState.status = Status.completed
    ∧ sampleCompletedState.progress = 100 :=
  ⟨by decide, by decide,
   completed_implies_progress100 [] sampleIns "job-1" 0 "job-1"
     "https://www.youtube.com/watch?v=abc" "mp4" "My Video"
     successPipelineEnv sampleCompletedState (by decide) (by decide)⟩

theorem pipeline_all_failed_final_witness :
    (tryYtdlCore "job-1" "u" "mp4" "My Video" allFailPipelineEnv.e1).2 = false
    ∧ (tryYoutubeDlExec "job-1" "u" "mp4" "My Video"
        allFailPipelineEnv.e2).2 = false
    ∧ (tryEnhancedYtDlp "job-1" "u" "mp4" "My Video"
        allFailPipelineEnv.e3).2 = false
    ∧ (foldUpd (createDownload [] sampleIns "job-1" 0).1
        (downloadWithMultipleStrategies "job-1" "u" "mp4" "My Video"
          allFailPipelineEnv)).status = Status.failed
    ∧ (foldUpd (createDownload [] sampleIns "job-1" 0).1
        (downloadWithMultipleStrategies "job-1" "u" "mp4" "My Video"
          allFailPipelineEnv)).progress = 0 :=
  ⟨rfl, rfl, rfl,
   (pipeline_all_failed_final [] sampleIns "job-1" 0 "job-1" "u" "mp4"
      "My Video" allFailPipelineEnv rfl rfl rfl).1,
   (pipeline_all_failed_final [] sampleIns "job-1" 0 "job-1" "u" "mp4"
      "My Video" allFailPipelineEnv rfl rfl rfl).2⟩

/-- Claim C6: each strategy executor is a total function into `Bool` —
in the source every throwing path is wrapped in a `catch` or an event
handler that resolves `false` — and each of the enumerated internal
failures (URL rejected, info fetch throws, no format, stream error,
subprocess rejection, nonzero exit code, spawn error, no output file
found after exit) yields the result `false`. -/
theorem strategy_executors_never_throw (i u f t : String) (e1 : YtdlEnv)
    (e2 : ExecEnv) (e3 : EnhancedEnv) :
    ((e1.urlValid = false ∨ e1.getInfoThrows = true ∨ e1.formatFound = false
        ∨ e1.streamFinished = false) → (tryYtdlCore i u f t e1).2 = false)
    ∧ ((e2.execThrows = true ∨ e2.foundFile = none)
        → (tryYoutubeDlExec i u f t e2).2 = false)
    ∧ ((e3.spawnErrors = true ∨ e3.exitCode ≠ 0 ∨ e3.foundFile = none)
        → (tryEnhancedYtDlp i u f t e3).2 = false) := by
  refine ⟨?_, ?_, ?_⟩
  · intro h
    rcases e1 with ⟨uv, git, ff, cont, evs, sf⟩
    cases uv <;> cases git <;> cases ff <;> cases sf <;>
      simp_all [tryYtdlCore]
  · intro h
    rcases e2 with ⟨et, ff⟩
    cases et <;> cases ff <;> simp_all [tryYoutubeDlExec]
  · intro h
    rcases e3 with ⟨se, ec, ff⟩
    cases se with
    | true => simp [tryEnhancedYtDlp]
    | false =>
      by_cases hec : ec = 0
      · cases ff <;> simp_all [tryEnhancedYtDlp, hec]
      · cases ff <;> simp_all [tryEnhancedYtDlp, hec]

theorem strategy_executors_never_throw_witness :
    (tryYtdlCore "job-1" "u" "mp4" "T"
        { urlValid := false, getInfoThrows := false, formatFound := true,
          container := "mp4", progressEvents := [],
          streamFinished := true }).2 = false
    ∧ (tryYoutubeDlExec "job-1" "u" "mp4" "T"
        { execThrows := false, foundFile := none }).2 = false
    ∧ (tryEnhancedYtDlp "job-1" "u" "mp4" "T"
        { spawnErrors := false, exitCode := 1,
          foundFile := some "f.mp4" }).2 = false :=
  ⟨(strategy_executors_never_throw "job-1" "u" "mp4" "T"
      { urlValid := false, getInfoThrows := false, formatFound := true,
        container := "mp4", progressEvents := [], streamFinished := true }
      { execThrows := false, foundFile := none }
      { spawnErrors := false, exitCode := 1,
        foundFile := some "f.mp4" }).1 (Or.inl rfl),
   (strategy_executors_never_throw "job-1" "u" "mp4" "T"
      { urlValid := false, getInfoThrows := false, formatFound := true,
        container := "mp4", progressEvents := [], streamFinished := true }
      { execThrows := false, foundFile := none }
      { spawnErrors := false, exitCode := 1,
        foundFile := some "f.mp4" }).2.1 (Or.inr rfl),
   (strategy_executors_never_throw "job-1" "u" "mp4" "T"
      { urlValid := false, getInfoThrows := false, formatFound := true,
        container := "mp4", progressEvents := [], streamFinished := true }
      { execThrows := false, foundFile := none }
      { spawnErrors := false, exitCode := 1,
        foundFile := some "f.mp4" }).2.2 (Or.inr (Or.inl (by decide)))⟩

/-- Claim C7 is false as stated: `"not a url"` matches no accepted
source-site pattern (and is not a syntactically well-formed URL), yet
`insertDownloadSchema` accepts the body and `POST /api/download`
creates and stores a job record for it, responding with the record
rather than a validation error. -/
theorem submit_accepts_malformed_url_cex :
    matchesYoutubePattern "not a url" = false
    ∧ parseInsertDownload cexBody = some cexIns
    ∧ postDownload cexBody [] "job-2" 5
        = ([SubmitStep.respondRecord (createDownload [] cexIns "job-2" 5).1,
            SubmitStep.launchPipeline "job-2" "not a url" "mp4" "My Video"],
           [("job-2", (createDownload [] cexIns "job-2" 5).1)])
    ∧ getDownload (postDownload cexBody [] "job-2" 5).2 "job-2"
        = some (createDownload [] cexIns "job-2" 5).1 := by
  refine ⟨by decide, by decide, by decide, by decide⟩

/-- Claim C7 (amended): `POST /api/download` validates only the type
shape of the body (`youtubeUrl` and `title` must be strings, the
optional metadata fields strings/null/absent, `format` a string or
absent); it performs no URL well-formedness or source-site-pattern
check on `sourceUrl` — that check (`matchesYoutubePattern`, from
`videoAnalysisSchema`) guards only `POST /api/analyze`.  For every
type-malformed body the handler responds with a 400 error and creates
no job record (the store is returned unchanged). -/
theorem submit_validation_shape_only :
    (∀ b : ReqBody, (parseInsertDownload b).isSome = typeWellFormed b)
    ∧ (∀ (b : ReqBody) (s : MemStorage) (fid : String) (now : Nat),
        parseInsertDownload b = none →
          postDownload b s fid now = ([SubmitStep.respondError], s)) := by
  refine ⟨parseInsertDownload_isSome, ?_⟩
  intro b s fid now hb
  simp [postDownload, hb]

theorem submit_validation_shape_only_witness :
    parseInsertDownload badFormatBody = none
    ∧ postDownload badFormatBody [] "job-3" 0
        = ([SubmitStep.respondError], []) :=
  ⟨by decide,
   submit_validation_shape_only.2 badFormatBody [] "job-3" 0 (by decide)⟩

/-- Claim C8: `GET /api/download/:id/file` yields Not-Found for every
record whose status is not `completed`, regardless of the disk's
contents; and it streams a file only when the record exists with status
`completed`, a recorded `filePath`, and that path present on disk. -/
theorem fetchOutputFile_requires_completed (s : MemStorage) (id : String)
    (diskHas : String → Bool) :
    (∀ d, getDownload s id = some d → d.status ≠ Status.completed →
        isNotFound (getDownloadFileRoute s id diskHas) = true)
    ∧ (∀ p, getDownloadFileRoute s id diskHas = FileResp.stream p →
        ∃ d, getDownload s id = some d ∧ d.status = Status.completed ∧
          d.filePath = some p ∧ diskHas p = true) := by
  constructor
  · intro d hd hst
    simp [getDownloadFileRoute, hd, hst, isNotFound]
  · intro p hp
    unfold getDownloadFileRoute at hp
    split at hp
    · cases hp
    · next d hd =>
        by_cases hst : d.status = Status.completed
        · rw [if_pos hst] at hp
          split at hp
          · next q hfp =>
              by_cases hdk : diskHas q = true
              · rw [if_pos hdk] at hp
                injection hp with hqp
                subst hqp
                exact ⟨d, hd, hst, hfp, hdk⟩
              · rw [if_neg hdk] at hp
                cases hp
          · cases hp
        · rw [if_neg hst] at hp
          cases hp

theorem fetchOutputFile_requires_completed_witness :
    getDownload pendingStore "job-4" = some downloadingRecord
    ∧ downloadingRecord.status ≠ Status.completed
    ∧ isNotFound (getDownloadFileRoute pendingStore "job-4"
        (fun _ => true)) = true :=
  ⟨by decide, by decide,
   (fetchOutputFile_requires_completed pendingStore "job-4"
      (fun _ => true)).1 downloadingRecord (by decide) (by decide)⟩

/-- Claim C9: for every body the insert schema accepts, the handler
responds with the freshly created record — `status` pending, `progress`
0, no `filePath`, `id` and `createdAt` assigned at creation — and only
after responding launches the pipeline task (the response step precedes
the launch step in the handler's step list; the handler never awaits
the pipeline). -/
theorem submit_returns_pending_record (b : ReqBody) (s : MemStorage)
    (fid : String) (now : Nat) (ins : InsertDownload)
    (hparse : parseInsertDownload b = some ins) :
    postDownload b s fid now
      = ([SubmitStep.respondRecord (createDownload s ins fid now).1,
          SubmitStep.launchPipeline fid ins.youtubeUrl (jsOrMp4 ins.format)
            ins.title], (createDownload s ins fid now).2)
    ∧ (createDownload s ins fid now).1.status = Status.pending
    ∧ (createDownload s ins fid now).1.progress = 0
    ∧ (createDownload s ins fid now).1.filePath = none
    ∧ (createDownload s ins fid now).1.id = fid
    ∧ (createDownload s ins fid now).1.createdAt = now := by
  refine ⟨?_, rfl, rfl, rfl, rfl, rfl⟩
  simp [postDownload, hparse, createDownload]

theorem submit_returns_pending_record_witness :
    parseInsertDownload sampleBody = some sampleIns
    ∧ postDownload sampleBody [] "job-1" 0
        = ([SubmitStep.respondRecord (createDownload [] sampleIns "job-1" 0).1,
            SubmitStep.launchPipeline "job-1"
              "https://www.youtube.com/watch?v=abc" "mp4" "My Video"],
           (createDownload [] sampleIns "job-1" 0).2)
    ∧ (createDownload [] sampleIns "job-1" 0).1.status = Status.pending :=
  ⟨by decide,
   (submit_returns_pending_record sampleBody [] "job-1" 0 sampleIns
      (by decide)).1,
   (submit_returns_pending_record sampleBody [] "job-1" 0 sampleIns
      (by decide)).2.1⟩

/-! ## Frame properties of the store update -/

theorem getDownload_setEntry_ne (s : MemStorage) (id j : String)
    (d : Download) (hne : j ≠ id) :
    getDownload (setEntry s id d) j = getDownload s j := by
  induction s with
  | nil =>
      have hij : ¬ (id = j) := fun h => hne h.symm
      simp [setEntry, getDownload, hij]
  | cons kv rest ih =>
      rcases kv with ⟨k, v⟩
      by_cases hk : k = id
      · subst hk
        have hkj : ¬ (k = j) := fun h => hne (h.symm.trans rfl)
        simp [setEntry, getDownload, hkj]
      · simp [setEntry, hk, getDownload, ih]

theorem getDownload_setEntry_self (s : MemStorage) (id : String)
    (d : Download) :
    getDownload (setEntry s id d) id = some d := by
  induction s with
  | nil => simp [setEntry, getDownload]
  | cons kv rest ih =>
      rcases kv with ⟨k, v⟩
      by_cases hk : k = id
      · simp [setEntry, hk, getDownload]
      · simp [setEntry, hk, getDownload, ih]

/-- Claim C10: `updateDownload(id, updates)` leaves every record under
a different id untouched; when no record with the id exists it returns
`undefined` and leaves the whole store unchanged (nothing created or
deleted); when the record exists it returns and stores the spread-merged
record, and the merge changes exactly the fields present in `updates` —
every absent field keeps its old value. -/
theorem updateDownload_frame (s : MemStorage) (id : String)
    (u : DownloadUpdate) :
    (getDownload s id = none → updateDownload s id u = (none, s))
    ∧ (∀ j, j ≠ id →
        getDownload (updateDownload s id u).2 j = getDownload s j)
    ∧ (∀ d, getDownload s id = some d →
        (updateDownload s id u).1 = some (applyUpdate d u) ∧
        getDownload (updateDownload s id u).2 id = some (applyUpdate d u))
    ∧ (∀ d : Download,
        (u.id = none → (applyUpdate d u).id = d.id) ∧
        (u.youtubeUrl = none → (applyUpdate d u).youtubeUrl = d.youtubeUrl) ∧
        (u.title = none → (applyUpdate d u).title = d.title) ∧
        (u.duration = none → (applyUpdate d u).duration = d.duration) ∧
        (u.thumbnail = none → (applyUpdate d u).thumbnail = d.thumbnail) ∧
        (u.channel = none → (applyUpdate d u).channel = d.channel) ∧
        (u.views = none → (applyUpdate d u).views = d.views) ∧
        (u.publishDate = none →
          (applyUpdate d u).publishDate = d.publishDate) ∧
        (u.format = none → (applyUpdate d u).format = d.format) ∧
        (u.status = none → (applyUpdate d u).status = d.status) ∧
        (u.progress = none → (applyUpdate d u).progress = d.progress) ∧
        (u.filePath = none → (applyUpdate d u).filePath = d.filePath) ∧
        (u.createdAt = none → (applyUpdate d u).createdAt = d.createdAt)) := by
  refine ⟨?_, ?_, ?_, ?_⟩
  · intro hnone
    simp [updateDownload, hnone]
  · intro j hj
    cases hd : getDownload s id with
    | none => simp [updateDownload, hd]
    | some d =>
        simp only [updateDownload, hd]
        exact getDownload_setEntry_ne s id j (applyUpdate d u) hj
  · intro d hd
    have h2 := getDownload_setEntry_self s id (applyUpdate d u)
    simp [updateDownload, hd, h2]
  · intro d
    refine ⟨?_, ?_, ?_, ?_, ?_, ?_, ?_, ?_, ?_, ?_, ?_, ?_, ?_⟩ <;>
      { intro h; simp [applyUpdate, h] }

theorem updateDownload_frame_witness :
    getDownload pendingStore "missing-id" = none
    ∧ updateDownload pendingStore "missing-id"
        (updStatusProgress Status.failed 0) = (none, pendingStore)
    ∧ getDownload
        (updateDownload pendingStore "job-4"
          (updStatusProgress Status.downloading 80)).2 "job-9"
        = getDownload pendingStore "job-9" :=
  ⟨by decide,
   (updateDownload_frame pendingStore "missing-id"
      (updStatusProgress Status.failed 0)).1 (by decide),
   (updateDownload_frame pendingStore "job-4"
      (updStatusProgress Status.downloading 80)).2.1 "job-9" (by decide)⟩
